import Mathlib

/-!
Shallow embedding of the online detection core of the modsec_ai repository
(src/utils/alert_manager.py, src/utils/rule_based_detector.py,
src/utils/real_time_detector.py, src/utils/vector_cache.py,
src/models/model_updater.py, src/models/score_combiner.py) together with
theorems settling the specification claims about it.

Modelling conventions:
- Python floats are modelled as exact numbers: rationals where the code only
  adds, divides and compares, and reals where numpy takes square roots
  (np.std) or interpolates percentiles.
- datetime values and timedeltas are modelled as integers (seconds).
- A raised-and-caught Python exception that only logs is modelled by the
  function returning the state unchanged; a propagated error is modelled as
  an explicit error value in the result.
-/

namespace ModsecAI

/-! ### numpy statistics helpers (np.mean, np.std, np.percentile) -/

/-- np.mean over a list of rationals: sum divided by length
(division by zero only reached on inputs the callers never produce). -/
def npMeanQ (l : List ℚ) : ℚ := l.sum / l.length

/-- Population variance as numpy computes it inside np.std: mean of squared
deviations from the mean (ddof = 0). -/
def npVarQ (l : List ℚ) : ℚ := (l.map (fun x => (x - npMeanQ l) ^ 2)).sum / l.length

/-- np.std: square root of the population variance. -/
noncomputable def npStd (l : List ℚ) : ℝ := Real.sqrt (npVarQ l)

/-- Ascending sort of a list of reals, as numpy sorts data before taking a
percentile. -/
noncomputable def sortR (l : List ℝ) : List ℝ :=
  l.mergeSort (fun a b => decide (a ≤ b))

/-- np.percentile with the default linear interpolation: on the sorted data
of length n, the virtual index is h = (n - 1) * q / 100 and the result
interpolates between the neighbouring order statistics. -/
noncomputable def npPercentile (l : List ℝ) (q : ℝ) : ℝ :=
  let s := sortR l
  let n := s.length
  let h : ℝ := (n - 1 : ℝ) * q / 100
  let lo : ℕ := Nat.floor h
  let g : ℝ := h - lo
  (1 - g) * s.getD lo 0 + g * s.getD (min (lo + 1) (n - 1)) 0

/-! ### AlertManager (src/utils/alert_manager.py) -/

/-- One record of AlertManager.anomaly_history (alert_manager.py lines 33-39). -/
structure HistEntry where
  timestamp : Int
  client_ip : String
  request_uri : String
  anomaly_score : ℚ
  message : String
deriving Repr, DecidableEq

/-- One row of the anomalies_df DataFrame handed to check_anomalies.
Fields are optional because the code reads them with .get and a default. -/
structure Anomaly where
  client_ip : Option String
  request_uri : Option String
  anomaly_score : Option ℚ
  message : Option String
deriving Repr, DecidableEq

/-- The AlertManager state. The notification_manager attribute is modelled
by the flag hasNotificationManager: the claims only depend on whether a sink
is configured and how often it is invoked. -/
structure AlertManager where
  threshold : Nat
  window : Int
  hasNotificationManager : Bool
  anomaly_history : List HistEntry
deriving Repr, DecidableEq

/-- Appending one DataFrame row to the history (alert_manager.py lines 33-39):
missing fields default to the strings unknown / empty and score 0.0. -/
def mkHistEntry (now : Int) (a : Anomaly) : HistEntry :=
  { timestamp := now
    client_ip := a.client_ip.getD "unknown"
    request_uri := a.request_uri.getD "unknown"
    anomaly_score := a.anomaly_score.getD 0
    message := a.message.getD "" }

/-- AlertManager._create_anomaly_summary: builds a textual summary (count,
distinct sources, mean score). The pandas table formatting of the original is
collapsed to the computed statistics; on a degenerate (empty) history the
internal exception is caught and an error string is returned, as in
alert_manager.py lines 106-108. The summary text never influences control
flow. -/
def create_anomaly_summary (h : List HistEntry) : String :=
  if h.isEmpty then
    "Erreur lors de la creation du resume des anomalies"
  else
    "total=" ++ toString h.length
      ++ " unique_ips=" ++ toString (h.map (fun e => e.client_ip)).dedup.length
      ++ " avg_score=" ++ toString (npMeanQ (h.map (fun e => e.anomaly_score)))

/-- AlertManager._trigger_alert (alert_manager.py lines 55-74): build the
summary, invoke the sink when one is configured, then reset the history.
The second component counts sink invocations during the call.
dispatchOk records whether the dispatch succeeded; it does not influence
control flow because NotificationManager.send_notification catches every
internal error and returns normally (notifications.py lines 44-55), so the
history reset is reached in either case. -/
def trigger_alert (s : AlertManager) (dispatchOk : Bool) : AlertManager × Nat :=
  let _summary := create_anomaly_summary s.anomaly_history
  let _ := dispatchOk
  let sinkCalls := if s.hasNotificationManager then 1 else 0
  ({ s with anomaly_history := [] }, sinkCalls)

/-- The history as it stands right before the threshold test inside
check_anomalies: new rows appended with the current timestamp, then entries
at or before the cutoff now - window pruned (alert_manager.py lines 31-46). -/
def prunedHistory (s : AlertManager) (batch : List Anomaly) (now : Int) : List HistEntry :=
  let h := s.anomaly_history ++ batch.map (mkHistEntry now)
  h.filter (fun e => decide (now - s.window < e.timestamp))

/-- AlertManager.check_anomalies (alert_manager.py lines 23-53): append the
batch, prune the window, fire when the pruned history reaches the threshold.
Returns the new state and the number of sink invocations made by the call. -/
def check_anomalies (s : AlertManager) (batch : List Anomaly) (now : Int)
    (dispatchOk : Bool) : AlertManager × Nat :=
  let h := prunedHistory s batch now
  if s.threshold ≤ h.length then
    trigger_alert { s with anomaly_history := h } dispatchOk
  else
    ({ s with anomaly_history := h }, 0)

/-! ### RuleBasedDetector (src/utils/rule_based_detector.py) -/

/-- A rule dictionary. name, pattern and severity are optional keys; the
conditions key is a field-name to pattern mapping (modelled as a list of
pairs). -/
structure Rule where
  name : Option String
  pattern : Option String
  severity : Option String
  description : Option String
  conditions : List (String × String)
deriving Repr, DecidableEq

/-- RuleBasedDetector._validate_rule (rule_based_detector.py lines 60-78):
the three required keys must be present and re.compile must accept the
primary pattern. compiles models which pattern strings the re module
accepts. Condition patterns are not examined here. -/
def validate_rule (compiles : String → Bool) (r : Rule) : Bool :=
  (r.name.isSome && r.pattern.isSome && r.severity.isSome) &&
    (match r.pattern with
     | some p => compiles p
     | none => false)

/-- RuleBasedDetector.add_rule (rule_based_detector.py lines 42-58): append
the rule when validation passes, otherwise log and leave the rule set
unchanged (no exception escapes). -/
def add_rule (compiles : String → Bool) (rules : List Rule) (r : Rule) : List Rule :=
  if validate_rule compiles r then rules ++ [r] else rules

/-- The acceptance condition exactly as the specification words it
(spec.md section 4.3): required keys present, the primary pattern compiles,
and every condition pattern compiles as well. Stated only to compare the
specification against add_rule; the code authority is validate_rule. -/
def specRuleAccepted (compiles : String → Bool) (r : Rule) : Bool :=
  r.name.isSome && r.severity.isSome &&
    (match r.pattern with
     | some p => compiles p
     | none => false) &&
    r.conditions.all (fun fp => compiles fp.2)

/-- A concrete model of re-module pattern compilation for counterexamples:
every string compiles except the lone unbalanced parenthesis. -/
def compilesNoLparen : String → Bool := fun s => !(s == "(")

/-- Concrete rule used in the claim C2 counterexample: all required keys
present, a compiling primary pattern, and one condition whose pattern does
not compile. -/
def ruleBadCondition : Rule :=
  { name := some "sqli"
    pattern := some "union.+select"
    severity := some "high"
    description := none
    conditions := [("uri", "(")] }

/-! ### RealTimeDetector (src/utils/real_time_detector.py) -/

/-- The RealTimeDetector state: configuration, the sliding score window
(a deque with maxlen window_size) and the stats dictionary. The threshold
lives in WithTop ℝ so that the float infinity returned by the adaptive
computation is a value of the model. -/
structure RealTimeDetector where
  window_size : Nat
  min_anomaly_ratio : ℚ
  adaptive_threshold : Bool
  score_window : List ℚ
  total_logs : Nat
  total_anomalies : Nat
  current_anomaly_ratio : ℚ
  mean_score : ℚ
  std_score : ℝ
  current_threshold : WithTop ℝ

/-- A freshly constructed (equivalently, freshly reset) detector:
empty window, zero counters and statistics (real_time_detector.py
lines 28-39 and 125-136). -/
def RealTimeDetector.init (window_size : Nat) (min_anomaly_ratio : ℚ)
    (adaptive_threshold : Bool) : RealTimeDetector :=
  { window_size := window_size
    min_anomaly_ratio := min_anomaly_ratio
    adaptive_threshold := adaptive_threshold
    score_window := []
    total_logs := 0
    total_anomalies := 0
    current_anomaly_ratio := 0
    mean_score := 0
    std_score := 0
    current_threshold := (0 : ℝ) }

/-- collections.deque append with maxlen cap: the oldest element is dropped
from the left once the capacity is exceeded. -/
def dequeAppend (cap : Nat) (w : List ℚ) (x : ℚ) : List ℚ :=
  let w2 := w ++ [x]
  if cap < w2.length then w2.drop (w2.length - cap) else w2

/-- The absolute z-scores of the window contents relative to its own mean
and standard deviation (real_time_detector.py line 112). -/
noncomputable def absZScores (w : List ℚ) : List ℝ :=
  w.map (fun x => |((x : ℝ) - (npMeanQ w : ℝ)) / npStd w|)

/-- RealTimeDetector._calculate_adaptive_threshold (real_time_detector.py
lines 97-119): with fewer than 2 samples the threshold is float infinity;
with zero standard deviation it is mean + 1.0; otherwise it is
mean + (95th percentile of absolute z-scores) * std. -/
noncomputable def calculate_adaptive_threshold (w : List ℚ) : WithTop ℝ :=
  if w.length < 2 then ⊤
  else if npStd w = 0 then ((npMeanQ w : ℝ) + 1 : ℝ)
  else ((npMeanQ w : ℝ) + npPercentile (absZScores w) 95 * npStd w : ℝ)

/-- The per-call output of update (real_time_detector.py lines 84-91),
without the timestamp and the stats copy, which carry no information beyond
the returned state. -/
structure DetectionResult where
  score : ℚ
  threshold : WithTop ℝ
  is_anomaly : Bool
  alert_triggered : Bool

/-- The window as update leaves it after the append of
real_time_detector.py line 53. -/
def newWindow (s : RealTimeDetector) (score : ℚ) : List ℚ :=
  dequeAppend s.window_size s.score_window score

/-- The threshold computed by update over the freshly appended window
(real_time_detector.py lines 60-64): the adaptive computation when enabled,
otherwise mean + 2 * std of the window. -/
noncomputable def updThreshold (s : RealTimeDetector) (score : ℚ) : WithTop ℝ :=
  if s.adaptive_threshold then calculate_adaptive_threshold (newWindow s score)
  else ((npMeanQ (newWindow s score) : ℝ) + 2 * npStd (newWindow s score) : ℝ)

/-- The per-event classification of real_time_detector.py line 69:
score > threshold (false against the infinite threshold). -/
noncomputable def updIsAnomaly (s : RealTimeDetector) (score : ℚ) : Bool :=
  decide (updThreshold s score < (((score : ℝ) : WithTop ℝ)))

/-- RealTimeDetector.update (real_time_detector.py lines 41-95): append the
score to the window, recompute mean and standard deviation, pick the
adaptive or the fixed mean + 2 * std threshold, classify score > threshold,
update the cumulative counters and the anomaly ratio, and report whether
the advisory alert condition (full window and ratio at least
min_anomaly_ratio) holds. -/
noncomputable def RealTimeDetector.update (s : RealTimeDetector) (score : ℚ) :
    RealTimeDetector × DetectionResult :=
  let w := newWindow s score
  let total_logs := s.total_logs + 1
  let total_anomalies := s.total_anomalies + (if updIsAnomaly s score then 1 else 0)
  let ratio : ℚ := (total_anomalies : ℚ) / (total_logs : ℚ)
  let alert := decide (s.window_size ≤ w.length) && decide (s.min_anomaly_ratio ≤ ratio)
  ({ s with
      score_window := w
      total_logs := total_logs
      total_anomalies := total_anomalies
      current_anomaly_ratio := ratio
      mean_score := npMeanQ w
      std_score := npStd w
      current_threshold := updThreshold s score },
   { score := score
     threshold := updThreshold s score
     is_anomaly := updIsAnomaly s score
     alert_triggered := alert })

/-- N consecutive update calls all carrying the same score v. -/
noncomputable def feedConst (s : RealTimeDetector) (v : ℚ) : Nat → RealTimeDetector
  | 0 => s
  | n + 1 => ((feedConst s v n).update v).1

/-- A concrete adaptive detector holding one score, used to witness the
adaptive-threshold case split. -/
def rtdExample : RealTimeDetector :=
  { RealTimeDetector.init 10 (1 / 10) true with score_window := [0] }

/-! ### VectorCache (src/utils/vector_cache.py) -/

/-- The values held for one key. The Python class keeps two dictionaries in
lockstep on an identical key set — cache (key to vector) and access_times
(key to last access time) — modelled here as one association list carrying
both values. -/
structure CacheEntry where
  vector : List ℚ
  time : Int
deriving Repr, DecidableEq

/-- The VectorCache state: capacity, ttl (a timedelta in seconds) and the
entries association list (keys are MD5 digests, in dictionary insertion
order). -/
structure VectorCache where
  max_size : Nat
  ttl : Int
  entries : List (String × CacheEntry)
deriving Repr, DecidableEq

/-- Well-formedness carried by every reachable Python state: dictionary keys
are distinct. -/
def VectorCache.WF (c : VectorCache) : Prop := (c.entries.map (fun e => e.1)).Nodup

/-- The key map on the entries: vector_cache.py line 63 hashes the
space-joined token list with MD5. The digest step is deterministic and
injective up to accepted hash collisions, so the model keys by the joined
string itself. -/
def get_hash (tokens : List String) : String := " ".intercalate tokens

/-- Dictionary insertion: replace in place when the key is present
(preserving dict order), otherwise append. -/
def insertEntry (l : List (String × CacheEntry)) (k : String) (v : CacheEntry) :
    List (String × CacheEntry) :=
  if l.any (fun e => e.1 == k) then
    l.map (fun e => if e.1 == k then (k, v) else e)
  else l ++ [(k, v)]

/-- Phase 1 of VectorCache._cleanup (vector_cache.py lines 70-77): the
entries that survive the expiry sweep, i.e. whose age since last access does
not strictly exceed the ttl. -/
def ttlSurvivors (c : VectorCache) (now : Int) : List (String × CacheEntry) :=
  c.entries.filter (fun e => !(decide (c.ttl < now - e.2.time)))

/-- The Python sorted call of vector_cache.py lines 82-85: entries in
ascending order of last access time (stable). -/
def sortByTime (l : List (String × CacheEntry)) : List (String × CacheEntry) :=
  l.mergeSort (fun a b => decide (a.2.time ≤ b.2.time))

/-- Phase 2 of VectorCache._cleanup (vector_cache.py lines 80-89): delete
the keys of the first n entries in ascending last-access order. -/
def evictOldest (l : List (String × CacheEntry)) (n : Nat) :
    List (String × CacheEntry) :=
  l.filter (fun e => !((((sortByTime l).take n).map (fun e => e.1)).contains e.1))

/-- VectorCache._cleanup (vector_cache.py lines 65-95): first delete every
entry whose age since last access strictly exceeds the ttl; then, only if
the cache is still strictly over max_size, sort the keys by last access time
ascending and delete the first size - max_size of them. The trailing
_save_cache call only performs file io and is dropped from the state model. -/
def VectorCache.cleanup (c : VectorCache) (now : Int) : VectorCache :=
  let kept := ttlSurvivors c now
  if c.max_size < kept.length then
    { c with entries := evictOldest kept (kept.length - c.max_size) }
  else
    { c with entries := kept }

/-- VectorCache.put (vector_cache.py lines 118-135): store the vector under
the token hash with the current access time, then run cleanup when the size
has reached max_size. -/
def VectorCache.put (c : VectorCache) (tokens : List String) (vector : List ℚ)
    (now : Int) : VectorCache :=
  let key := get_hash tokens
  let c2 := { c with entries := insertEntry c.entries key ⟨vector, now⟩ }
  if c.max_size ≤ c2.entries.length then c2.cleanup now else c2

/-- VectorCache.get (vector_cache.py lines 97-116): a hit refreshes the last
access time and returns the vector; a miss returns none. -/
def VectorCache.get (c : VectorCache) (tokens : List String) (now : Int) :
    Option (List ℚ) × VectorCache :=
  let key := get_hash tokens
  match c.entries.find? (fun e => e.1 == key) with
  | some e =>
      (some e.2.vector,
       { c with entries := c.entries.map (fun e2 =>
           if e2.1 == key then (key, { e2.2 with time := now }) else e2) })
  | none => (none, c)

/-- The persisted vector_cache.json file as the constructor can find it.
_load_cache consumes it in stages (vector_cache.py lines 36-42): opening,
JSON decoding and the cache-section conversion all happen before anything is
assigned; the cache dictionary is then assigned (line 40) before the
access_times section is parsed (lines 41-42). The constructors cover the
four outcomes: no file; an error before any assignment (unreadable file,
invalid JSON, missing or unconvertible cache section); a cache section that
converts while the access_times section raises (missing key, or a timestamp
datetime.fromisoformat rejects), leaving only the cache assigned; and a
fully well-formed file carrying both sections. -/
inductive DiskFile where
  | missing : DiskFile
  | unreadable : DiskFile
  | cacheOnly : List (String × List ℚ) → DiskFile
  | valid : List (String × List ℚ) → List (String × Int) → DiskFile
deriving DecidableEq

/-- The two dictionaries of the class exactly as __init__ and _load_cache
leave them. put/cleanup above operate on lockstep states (identical key
sets, one association list); the loader cannot assume lockstep, because its
staged assignment can populate the cache dictionary while access_times
stays empty, so the maps are modelled separately here. -/
structure VectorCacheRaw where
  max_size : Nat
  ttl : Int
  cache : List (String × List ℚ)
  access_times : List (String × Int)
deriving Repr, DecidableEq

/-- VectorCache._load_cache (vector_cache.py lines 33-45): a missing file is
skipped; an exception before the line-40 assignment is caught and both maps
keep their current (empty) contents; an exception raised while parsing the
access_times section is caught only after self.cache was assigned, so the
cache map is replaced and access_times keeps its contents; a well-formed
file replaces both maps. -/
def load_cache (d : DiskFile) (c : VectorCacheRaw) : VectorCacheRaw :=
  match d with
  | .missing => c
  | .unreadable => c
  | .cacheOnly es => { c with cache := es }
  | .valid es ats => { c with cache := es, access_times := ats }

/-- VectorCache.__init__ (vector_cache.py lines 13-31): both maps start
empty, then _load_cache runs against whatever is on disk. -/
def VectorCacheRaw.init (max_size : Nat) (ttl : Int) (d : DiskFile) : VectorCacheRaw :=
  load_cache d { max_size := max_size, ttl := ttl, cache := [], access_times := [] }

/-- Dictionary assignment self.access_times[key] = now of vector_cache.py
line 110: replace in place when the key is present, otherwise append. -/
def setAccessTime (l : List (String × Int)) (k : String) (t : Int) :
    List (String × Int) :=
  if l.any (fun e => e.1 == k) then
    l.map (fun e => if e.1 == k then (k, t) else e)
  else l ++ [(k, t)]

/-- VectorCache.get (vector_cache.py lines 97-116) on the two-map state: a
key present in the cache dictionary has its access time refreshed (or
created, if the staged load left it without one) and its vector returned; a
miss returns none. -/
def VectorCacheRaw.get (c : VectorCacheRaw) (tokens : List String) (now : Int) :
    Option (List ℚ) × VectorCacheRaw :=
  let key := get_hash tokens
  match c.cache.find? (fun e => e.1 == key) with
  | some e => (some e.2, { c with access_times := setAccessTime c.access_times key now })
  | none => (none, c)

/-! ### ModelUpdater._should_retrain (src/models/model_updater.py) -/

/-- The per-model metric dictionary produced by _evaluate_performance.
The second field models the dictionary key named recall, which is a
reserved word here. -/
structure Perf where
  precision : ℚ
  recall' : ℚ
  f1 : ℚ
  auc : ℚ
deriving Repr, DecidableEq

/-- The four cross-model metric means, in the metric order of the source
(model_updater.py lines 227-230). -/
def metric_means (performance : List Perf) : List ℚ :=
  [npMeanQ (performance.map (fun p => p.precision)),
   npMeanQ (performance.map (fun p => p.recall')),
   npMeanQ (performance.map (fun p => p.f1)),
   npMeanQ (performance.map (fun p => p.auc))]

/-- avg_performance of model_updater.py lines 227-230: the mean of the four
per-metric cross-model means. -/
def avg_performance (performance : List Perf) : ℚ := npMeanQ (metric_means performance)

/-- ModelUpdater._should_retrain (model_updater.py lines 216-240): retrain
exactly when the average performance is strictly below the threshold. -/
def should_retrain (performance : List Perf) (performance_threshold : ℚ) : Bool :=
  decide (avg_performance performance < performance_threshold)

/-! ### ScoreCombiner (src/models/score_combiner.py) -/

/-- The keys of the SCORE_OPERATIONS table (src/config/model_config.py
lines 88-109). -/
def SCORE_OPERATIONS : List String := ["mean", "max", "min", "weighted_mean"]

/-- The ScoreCombiner state: the current operation name and the per-model
weights. -/
structure ScoreCombiner where
  operation : String
  weights : List (String × ℚ)
deriving Repr, DecidableEq

/-- ScoreCombiner._validate_operation (score_combiner.py lines 26-30):
produces the ValueError message when the current operation is not a key of
SCORE_OPERATIONS, nothing otherwise. -/
def validate_operation (c : ScoreCombiner) : Option String :=
  if SCORE_OPERATIONS.contains c.operation then none
  else some ("Operation invalide: " ++ c.operation)

/-- ScoreCombiner.set_operation (score_combiner.py lines 85-92): the field
is assigned first and validation runs afterwards, so the state change
survives a raised ValueError. The second component is the raised error, if
any. -/
def set_operation (c : ScoreCombiner) (op : String) : ScoreCombiner × Option String :=
  let c2 := { c with operation := op }
  (c2, validate_operation c2)

/-! ## Theorems -/

/-- Unfolding equation for check_anomalies: the let bindings of the source
reduce to the pruned history and the threshold test. -/
theorem check_anomalies_eq (s : AlertManager) (batch : List Anomaly) (now : Int)
    (dispatchOk : Bool) :
    check_anomalies s batch now dispatchOk =
      if s.threshold ≤ (prunedHistory s batch now).length then
        trigger_alert { s with anomaly_history := prunedHistory s batch now } dispatchOk
      else ({ s with anomaly_history := prunedHistory s batch now }, 0) := rfl

/-! ### Claim C1 -/

/-- Claim C1: whenever a check_anomalies call reaches the firing condition
(the history, after appending the batch and pruning the window, has reached
the threshold), the call returns with an empty anomaly history regardless of
the dispatch outcome, and the configured notification sink was invoked
exactly once during the call. -/
theorem alert_firing_clears_history_and_notifies_once
    (s : AlertManager) (batch : List Anomaly) (now : Int) (dispatchOk : Bool)
    (hfire : s.threshold ≤ (prunedHistory s batch now).length) :
    (check_anomalies s batch now dispatchOk).1.anomaly_history = [] ∧
    (s.hasNotificationManager = true →
      (check_anomalies s batch now dispatchOk).2 = 1) := by
  rw [check_anomalies_eq, if_pos hfire]
  refine ⟨rfl, fun h => ?_⟩
  show (if ({ s with anomaly_history := prunedHistory s batch now } :
      AlertManager).hasNotificationManager then 1 else 0) = 1
  simp [h]

/-- Witness for claim C1 at a concrete firing state, with a failed dispatch. -/
theorem alert_firing_clears_history_and_notifies_once_w :
    ((1 : Nat) ≤ (prunedHistory ⟨1, 300, true, []⟩ [⟨none, none, none, none⟩] 0).length) ∧
    ((check_anomalies ⟨1, 300, true, []⟩ [⟨none, none, none, none⟩] 0 false).1.anomaly_history = [] ∧
     ((⟨1, 300, true, []⟩ : AlertManager).hasNotificationManager = true →
       (check_anomalies ⟨1, 300, true, []⟩ [⟨none, none, none, none⟩] 0 false).2 = 1)) :=
  ⟨by decide,
   alert_firing_clears_history_and_notifies_once ⟨1, 300, true, []⟩
     [⟨none, none, none, none⟩] 0 false (by decide)⟩

/-! ### Claim C7 -/

/-- Claim C7 counterexample: an empty batch does not always leave the history
length unchanged, and it can fire. With threshold 1, window 300 and one
history entry from time 0, a call at time 100 with an empty batch fires: the
history drops from length 1 to length 0 and the sink is invoked. -/
theorem check_anomalies_empty_batch_claim_false :
    ¬ (((check_anomalies ⟨1, 300, true, [⟨0, "u", "r", 0, "m"⟩]⟩ [] 100 true).1.anomaly_history.length
          = (1 : Nat)) ∧
       (check_anomalies ⟨1, 300, true, [⟨0, "u", "r", 0, "m"⟩]⟩ [] 100 true).2 = 0) := by
  decide

/-- Claim C7 as amended: an empty batch appends nothing, so the history
length never increases; but window pruning still runs and the threshold test
still applies, so the call leaves the pruned history in place without firing
exactly when that history is below the threshold, and otherwise fires
(clearing the history and invoking the sink when configured). -/
theorem check_anomalies_empty_batch_spec
    (s : AlertManager) (now : Int) (dispatchOk : Bool) :
    (check_anomalies s [] now dispatchOk).1.anomaly_history.length ≤ s.anomaly_history.length ∧
    ((prunedHistory s [] now).length < s.threshold →
      (check_anomalies s [] now dispatchOk).1.anomaly_history = prunedHistory s [] now ∧
      (check_anomalies s [] now dispatchOk).2 = 0) ∧
    (s.threshold ≤ (prunedHistory s [] now).length →
      (check_anomalies s [] now dispatchOk).1.anomaly_history = [] ∧
      (check_anomalies s [] now dispatchOk).2 =
        (if s.hasNotificationManager then 1 else 0)) := by
  have hlen : (prunedHistory s [] now).length ≤ s.anomaly_history.length := by
    unfold prunedHistory
    simp only [List.map_nil, List.append_nil]
    exact List.length_filter_le _ _
  by_cases hfire : s.threshold ≤ (prunedHistory s [] now).length
  · rw [check_anomalies_eq, if_pos hfire]
    exact ⟨Nat.zero_le _, fun hlt => absurd hfire (not_le.mpr hlt),
      fun _ => ⟨rfl, rfl⟩⟩
  · rw [check_anomalies_eq, if_neg hfire]
    exact ⟨hlen, fun _ => ⟨rfl, rfl⟩, fun h => absurd h hfire⟩

/-! ### Claim C2 -/

/-- Claim C2 counterexample: a rule whose required keys are present and
whose primary pattern compiles is added even though one of its condition
patterns does not compile, contradicting the claim that every condition
pattern must compile for the rule to enter the active rule set. -/
theorem add_rule_condition_patterns_unchecked :
    specRuleAccepted compilesNoLparen ruleBadCondition = false ∧
    add_rule compilesNoLparen [] ruleBadCondition = [ruleBadCondition] := by
  decide

/-- Claim C2 as amended: a rule is added to the active rule set if and only
if it has a name, a primary pattern and a severity and its primary pattern
compiles; condition patterns are never examined at add time; in every case
the call returns the old or extended rule set without raising. -/
theorem add_rule_adds_iff
    (compiles : String → Bool) (rules : List Rule) (r : Rule) :
    (add_rule compiles rules r = rules ++ [r] ↔
      (r.name.isSome = true ∧ r.severity.isSome = true ∧
        ∃ p, r.pattern = some p ∧ compiles p = true)) ∧
    (add_rule compiles rules r = rules ++ [r] ∨ add_rule compiles rules r = rules) := by
  have happ : rules ++ [r] ≠ rules := by
    intro h
    have := congrArg List.length h
    simp at this
  by_cases hval : validate_rule compiles r = true
  · refine ⟨⟨fun _ => ?_, fun _ => by simp [add_rule, hval]⟩, Or.inl (by simp [add_rule, hval])⟩
    unfold validate_rule at hval
    cases hp : r.pattern with
    | none => rw [hp] at hval; simp at hval
    | some p =>
        rw [hp] at hval
        simp only [Bool.and_eq_true] at hval
        exact ⟨hval.1.1.1, hval.1.2, p, rfl, hval.2⟩
  · refine ⟨⟨fun h => ?_, fun hok => ?_⟩, Or.inr (by simp [add_rule, hval])⟩
    · rw [add_rule, if_neg hval] at h
      exact absurd h.symm happ
    · obtain ⟨h1, h2, p, hp, hc⟩ := hok
      exact absurd (by simp [validate_rule, hp, h1, h2, hc]) hval

/-! ### Claim C10 -/

/-- Claim C10: set_operation with an unsupported operation name raises the
invalid-operation error, but the assignment happens before validation, so
after the failed call the operation field holds the rejected name (and no
longer the previously valid operation when the two differ). -/
theorem set_operation_not_atomic_on_error
    (c : ScoreCombiner) (op : String)
    (hbad : SCORE_OPERATIONS.contains op = false) :
    (set_operation c op).2.isSome = true ∧
    (set_operation c op).1.operation = op ∧
    (c.operation ≠ op → (set_operation c op).1.operation ≠ c.operation) := by
  have hv : validate_operation { c with operation := op } =
      some ("Operation invalide: " ++ op) := by
    unfold validate_operation
    rw [show ({ c with operation := op } : ScoreCombiner).operation = op from rfl, hbad]
    simp
  refine ⟨?_, rfl, fun hne => ?_⟩
  · rw [show (set_operation c op).2 = validate_operation { c with operation := op } from rfl, hv]
    rfl
  · exact fun h => hne h.symm

/-- Witness for claim C10: starting from a valid mean combiner, setting the
unsupported operation median errors yet leaves the field holding median. -/
theorem set_operation_not_atomic_on_error_w :
    SCORE_OPERATIONS.contains "median" = false ∧
    ((set_operation ⟨"mean", []⟩ "median").2.isSome = true ∧
     (set_operation ⟨"mean", []⟩ "median").1.operation = "median" ∧
     ((⟨"mean", []⟩ : ScoreCombiner).operation ≠ "median" →
       (set_operation ⟨"mean", []⟩ "median").1.operation ≠
         (⟨"mean", []⟩ : ScoreCombiner).operation)) :=
  ⟨by decide, set_operation_not_atomic_on_error ⟨"mean", []⟩ "median" (by decide)⟩

/-! ### Claim C9 -/

/-- The sum of a nonempty list with every element strictly below t stays
strictly below length * t. -/
theorem sum_lt_length_mul {t : ℚ} :
    ∀ {l : List ℚ}, l ≠ [] → (∀ x ∈ l, x < t) → l.sum < l.length * t
  | [], h, _ => absurd rfl h
  | [x], _, h => by simpa using h x (by simp)
  | x :: y :: ys, _, h => by
      have ih := sum_lt_length_mul (l := y :: ys) (by simp)
        (fun z hz => h z (by simp [List.mem_cons] at hz ⊢; tauto))
      have hx := h x (by simp)
      simp only [List.sum_cons, List.length_cons] at ih ⊢
      push_cast at ih ⊢
      linarith

/-- The sum of a nonempty list with every element strictly above t stays
strictly above length * t. -/
theorem length_mul_lt_sum {t : ℚ} :
    ∀ {l : List ℚ}, l ≠ [] → (∀ x ∈ l, t < x) → l.length * t < l.sum
  | [], h, _ => absurd rfl h
  | [x], _, h => by simpa using h x (by simp)
  | x :: y :: ys, _, h => by
      have ih := length_mul_lt_sum (l := y :: ys) (by simp)
        (fun z hz => h z (by simp [List.mem_cons] at hz ⊢; tauto))
      have hx := h x (by simp)
      simp only [List.sum_cons, List.length_cons] at ih ⊢
      push_cast at ih ⊢
      linarith

/-- The mean of a nonempty list with every element strictly below t is
strictly below t. -/
theorem npMeanQ_lt_of_forall_lt {l : List ℚ} {t : ℚ} (hne : l ≠ [])
    (h : ∀ x ∈ l, x < t) : npMeanQ l < t := by
  have hlen : (0 : ℚ) < l.length := by
    have := List.length_pos.mpr hne
    exact_mod_cast this
  rw [npMeanQ, div_lt_iff hlen]
  have := sum_lt_length_mul hne h
  linarith [this]

/-- The mean of a nonempty list with every element strictly above t is
strictly above t. -/
theorem lt_npMeanQ_of_forall_lt {l : List ℚ} {t : ℚ} (hne : l ≠ [])
    (h : ∀ x ∈ l, t < x) : t < npMeanQ l := by
  have hlen : (0 : ℚ) < l.length := by
    have := List.length_pos.mpr hne
    exact_mod_cast this
  rw [npMeanQ, lt_div_iff hlen]
  have := length_mul_lt_sum hne h
  linarith [this]

/-- Claim C9: on a nonempty per-model performance map, _should_retrain
returns true exactly when the mean over the four metrics of the per-metric
cross-model means is strictly below the performance threshold; in
particular it returns true when all four cross-model metric means are below
the threshold and false when all four are above it. -/
theorem should_retrain_spec (performance : List Perf) (t : ℚ)
    (hne : performance ≠ []) :
    (should_retrain performance t = true ↔ avg_performance performance < t) ∧
    ((∀ m ∈ metric_means performance, m < t) → should_retrain performance t = true) ∧
    ((∀ m ∈ metric_means performance, t < m) → should_retrain performance t = false) := by
  have _hne := hne
  refine ⟨by simp [should_retrain], fun hall => ?_, fun hall => ?_⟩
  · have : avg_performance performance < t :=
      npMeanQ_lt_of_forall_lt (by simp [metric_means]) hall
    simpa [should_retrain] using this
  · have : t < avg_performance performance :=
      lt_npMeanQ_of_forall_lt (by simp [metric_means]) hall
    simp [should_retrain, not_lt.mpr (le_of_lt this)]

/-- Witness for claim C9: a single model whose four metrics are all 1, with
threshold 2; every cross-model metric mean is below the threshold and
retraining is required. -/
theorem should_retrain_spec_w :
    ([⟨1, 1, 1, 1⟩] ≠ ([] : List Perf)) ∧
    should_retrain [⟨1, 1, 1, 1⟩] 2 = true :=
  ⟨by simp,
   (should_retrain_spec [⟨1, 1, 1, 1⟩] 2 (by simp)).2.1
     (by norm_num [metric_means, npMeanQ])⟩

/-! ### Claim C8 -/

/-- Claim C8 (the code violates it): a malformed persisted file whose cache
section converts while its access_times section raises — for example
cache holding one entry and an access_times value that
datetime.fromisoformat rejects — does not behave as an empty cache.
Because self.cache is assigned (vector_cache.py line 40) before the
access_times parse raises and the exception is only caught afterwards, the
constructed state has a non-empty cache map, an empty access-time map out
of step with it, and the persisted entry is retrievable by get, contrary to
the claim and to the stated fallback of an empty cache. -/
theorem init_cache_only_disk_entry_retrievable :
    (VectorCacheRaw.init 10 86400 (DiskFile.cacheOnly [("a b", [1])])).cache =
      [("a b", [1])] ∧
    (VectorCacheRaw.init 10 86400 (DiskFile.cacheOnly [("a b", [1])])).access_times = [] ∧
    ((VectorCacheRaw.init 10 86400 (DiskFile.cacheOnly [("a b", [1])])).get
      ["a", "b"] 5).1 = some [1] := by
  refine ⟨rfl, rfl, ?_⟩
  decide

/-! ### Claims C5 and C6: VectorCache eviction -/

/-- Unfolding equation for cleanup. -/
theorem cleanup_eq (c : VectorCache) (now : Int) :
    c.cleanup now =
      if c.max_size < (ttlSurvivors c now).length then
        { c with entries := (evictOldest (ttlSurvivors c now)
            ((ttlSurvivors c now).length - c.max_size)) }
      else { c with entries := ttlSurvivors c now } := rfl

/-- Unfolding equation for put. -/
theorem put_eq (c : VectorCache) (tokens : List String) (vector : List ℚ)
    (now : Int) :
    c.put tokens vector now =
      if c.max_size ≤ (insertEntry c.entries (get_hash tokens) ⟨vector, now⟩).length then
        ({ c with entries := insertEntry c.entries (get_hash tokens) ⟨vector, now⟩ }
          : VectorCache).cleanup now
      else { c with entries := insertEntry c.entries (get_hash tokens) ⟨vector, now⟩ } :=
  rfl

/-- The comparison used by the access-time sort is transitive. -/
theorem leTime_trans (a b c : String × CacheEntry)
    (hab : decide (a.2.time ≤ b.2.time) = true)
    (hbc : decide (b.2.time ≤ c.2.time) = true) :
    decide (a.2.time ≤ c.2.time) = true :=
  decide_eq_true (le_trans (of_decide_eq_true hab) (of_decide_eq_true hbc))

/-- The comparison used by the access-time sort is total. -/
theorem leTime_total (a b : String × CacheEntry) :
    (decide (a.2.time ≤ b.2.time) || decide (b.2.time ≤ a.2.time)) = true := by
  rcases le_total a.2.time b.2.time with h | h <;> simp [h]

/-- Over a list with distinct keys, evicting the n oldest entries removes
exactly n of them, keeps a sublist of the input, and only ever removes
entries whose last access time is at most that of every kept entry. -/
theorem evictOldest_spec (l : List (String × CacheEntry)) (n : Nat)
    (hn : n ≤ l.length) (hnd : (l.map (fun e => e.1)).Nodup) :
    (evictOldest l n).length = l.length - n ∧
    (∀ e ∈ evictOldest l n, e ∈ l) ∧
    (∀ e ∈ l, e ∉ evictOldest l n → ∀ e2 ∈ evictOldest l n, e.2.time ≤ e2.2.time) := by
  classical
  set sorted := sortByTime l with hsortedDef
  set removed := (sorted.take n).map (fun e => e.1) with hremovedDef
  set p : String × CacheEntry → Bool := fun e => !(removed.contains e.1) with hp
  have hres : evictOldest l n = l.filter p := rfl
  have hperm : sorted.Perm l := List.mergeSort_perm l _
  have hndS : (sorted.map (fun e => e.1)).Nodup :=
    ((hperm.map (fun e => e.1)).nodup_iff).mpr hnd
  have hsplit : sorted.take n ++ sorted.drop n = sorted := List.take_append_drop n sorted
  have hkeys : ((sorted.take n).map (fun e => e.1) ++
      (sorted.drop n).map (fun e => e.1)).Nodup := by
    rw [← List.map_append, hsplit]; exact hndS
  have hdisj := (List.nodup_append.mp hkeys).2.2
  have htake : ∀ e ∈ sorted.take n, p e = false := by
    intro e he
    have hmem : e.1 ∈ removed := List.mem_map.mpr ⟨e, he, rfl⟩
    have hc : removed.contains e.1 = true := List.elem_eq_true_of_mem hmem
    show (!(removed.contains e.1)) = false
    rw [hc]
    rfl
  have hdrop : ∀ e ∈ sorted.drop n, p e = true := by
    intro e he
    have hkey : e.1 ∈ (sorted.drop n).map (fun e => e.1) := List.mem_map.mpr ⟨e, he, rfl⟩
    have hnotin : e.1 ∉ removed := fun hc => hdisj hc hkey
    have hc : removed.contains e.1 = false := by
      cases hx : removed.contains e.1
      · rfl
      · exact absurd (List.mem_of_elem_eq_true hx) hnotin
    show (!(removed.contains e.1)) = true
    rw [hc]
    rfl
  have hfil : sorted.filter p = sorted.drop n := by
    conv_lhs => rw [← hsplit]
    rw [List.filter_append, List.filter_eq_nil_iff.mpr (fun a ha => by simp [htake a ha]),
      List.filter_eq_self.mpr hdrop]
    simp
  have hrp : (l.filter p).Perm (sorted.drop n) := by
    have h := (hperm.symm).filter p
    rwa [hfil] at h
  refine ⟨?_, ?_, ?_⟩
  · rw [hres, hrp.length_eq, List.length_drop, hperm.length_eq]
  · intro e he
    exact (List.mem_filter.mp (by rwa [hres] at he)).1
  · intro e he hne e2 he2
    have hpe : p e = false := by
      by_contra hcon
      exact hne (by
        rw [hres]
        exact List.mem_filter.mpr ⟨he, Bool.eq_true_of_ne_false hcon⟩)
    have hes : e ∈ sorted := hperm.mem_iff.mpr he
    have hetake : e ∈ sorted.take n := by
      have : e ∈ sorted.take n ++ sorted.drop n := by rw [hsplit]; exact hes
      rcases List.mem_append.mp this with h | h
      · exact h
      · rw [hdrop e h] at hpe; exact absurd hpe (by simp)
    have he2drop : e2 ∈ sorted.drop n := hrp.mem_iff.mp (by rwa [hres] at he2)
    have hsorted : List.Pairwise
        (fun a b => (decide (a.2.time ≤ b.2.time)) = true) sorted :=
      List.sorted_mergeSort leTime_trans leTime_total l
    have hpw := hsorted
    rw [← hsplit] at hpw
    exact of_decide_eq_true ((List.pairwise_append.mp hpw).2.2 e hetake e2 he2drop)

/-- Every entry surviving phase 1 is within the ttl. -/
theorem ttlSurvivors_unexpired (c : VectorCache) (now : Int) :
    ∀ e ∈ ttlSurvivors c now, now - e.2.time ≤ c.ttl := by
  intro e he
  have h := (List.mem_filter.mp he).2
  have : ¬ (c.ttl < now - e.2.time) := by
    intro hlt
    simp [decide_eq_true hlt] at h
  omega

/-- Phase 1 preserves distinctness of keys. -/
theorem ttlSurvivors_wf (c : VectorCache) (now : Int) (hwf : c.WF) :
    ((ttlSurvivors c now).map (fun e => e.1)).Nodup := by
  have h : (c.entries.map (fun e => e.1)).Nodup := hwf
  exact ((List.filter_sublist c.entries).map (fun e => e.1)).nodup h

/-- Cleanup never leaves the cache above its capacity. -/
theorem cleanup_length_le (c : VectorCache) (now : Int) (hwf : c.WF) :
    (c.cleanup now).entries.length ≤ c.max_size := by
  rw [cleanup_eq]
  by_cases h : c.max_size < (ttlSurvivors c now).length
  · rw [if_pos h]
    have h1 := (evictOldest_spec (ttlSurvivors c now)
      ((ttlSurvivors c now).length - c.max_size) (by omega)
      (ttlSurvivors_wf c now hwf)).1
    simp only [h1]
    omega
  · rw [if_neg h]
    simpa using Nat.le_of_not_lt h

/-- Dictionary insertion preserves distinctness of keys. -/
theorem insertEntry_wf (l : List (String × CacheEntry)) (k : String)
    (v : CacheEntry) (h : (l.map (fun e => e.1)).Nodup) :
    ((insertEntry l k v).map (fun e => e.1)).Nodup := by
  unfold insertEntry
  by_cases hany : l.any (fun e => e.1 == k) = true
  · rw [if_pos hany, List.map_map]
    have hfun : ((fun e => e.1) ∘ (fun (e : String × CacheEntry) =>
        if e.1 == k then (k, v) else e)) = fun (e : String × CacheEntry) => e.1 := by
      funext e
      by_cases hk : e.1 = k
      · simp [hk]
      · simp [hk]
    rw [hfun]
    exact h
  · rw [if_neg hany, List.map_append, List.nodup_append]
    refine ⟨h, List.nodup_singleton _, ?_⟩
    intro a ha hb
    have hak : a = k := by simpa using hb
    rcases List.mem_map.mp ha with ⟨e, hel, hek⟩
    exact hany (List.any_eq_true.mpr ⟨e, hel, by rw [hek, hak]; exact beq_self_eq_true k⟩)

/-- Claim C5: for every cache state with distinct keys, the number of
entries immediately after any put returns is at most the configured
capacity max_size. -/
theorem put_size_le_max (c : VectorCache) (tokens : List String)
    (vector : List ℚ) (now : Int) (hwf : c.WF) :
    (c.put tokens vector now).entries.length ≤ c.max_size := by
  rw [put_eq]
  by_cases h : c.max_size ≤ (insertEntry c.entries (get_hash tokens) ⟨vector, now⟩).length
  · rw [if_pos h]
    exact cleanup_length_le _ now (insertEntry_wf _ _ _ hwf)
  · rw [if_neg h]
    simpa using le_of_lt (Nat.lt_of_not_le h)

/-- Witness for claim C5: a full two-entry cache receiving a third entry is
cleaned back down to its capacity of two. -/
theorem put_size_le_max_w :
    (⟨2, 100, [("a", ⟨[], 0⟩), ("b", ⟨[], 1⟩)]⟩ : VectorCache).WF ∧
    ((⟨2, 100, [("a", ⟨[], 0⟩), ("b", ⟨[], 1⟩)]⟩ : VectorCache).put ["x"] [1] 2).entries.length ≤ 2 :=
  ⟨by unfold VectorCache.WF; decide,
   put_size_le_max ⟨2, 100, [("a", ⟨[], 0⟩), ("b", ⟨[], 1⟩)]⟩ ["x"] [1] 2
     (by unfold VectorCache.WF; decide)⟩

/-- Claim C6: cleanup runs in two ordered phases. Every entry older than the
ttl is removed and every surviving entry is within the ttl; if the expiry
sweep alone brings the cache to or under capacity, the survivors are kept
untouched (no recency eviction); only if the cache is still above capacity
are entries evicted oldest-by-last-access-time first, down to exactly the
capacity, so ttl eviction always takes priority over recency eviction. -/
theorem cleanup_two_phase (c : VectorCache) (now : Int) (hwf : c.WF) :
    (∀ e ∈ (c.cleanup now).entries, now - e.2.time ≤ c.ttl) ∧
    ((ttlSurvivors c now).length ≤ c.max_size →
      (c.cleanup now).entries = ttlSurvivors c now) ∧
    (c.max_size < (ttlSurvivors c now).length →
      (c.cleanup now).entries.length = c.max_size ∧
      (∀ e ∈ (c.cleanup now).entries, e ∈ ttlSurvivors c now) ∧
      (∀ e ∈ ttlSurvivors c now, e ∉ (c.cleanup now).entries →
        ∀ e2 ∈ (c.cleanup now).entries, e.2.time ≤ e2.2.time)) := by
  have hspec := evictOldest_spec (ttlSurvivors c now)
    ((ttlSurvivors c now).length - c.max_size)
    (by omega) (ttlSurvivors_wf c now hwf)
  refine ⟨?_, ?_, ?_⟩
  · intro e he
    rw [cleanup_eq] at he
    by_cases h : c.max_size < (ttlSurvivors c now).length
    · rw [if_pos h] at he
      exact ttlSurvivors_unexpired c now e (hspec.2.1 e he)
    · rw [if_neg h] at he
      exact ttlSurvivors_unexpired c now e he
  · intro h
    rw [cleanup_eq,
      if_neg (show ¬ c.max_size < (ttlSurvivors c now).length by omega)]
  · intro h
    rw [cleanup_eq, if_pos h]
    refine ⟨?_, hspec.2.1, hspec.2.2⟩
    show (evictOldest (ttlSurvivors c now)
      ((ttlSurvivors c now).length - c.max_size)).length = c.max_size
    rw [hspec.1]
    omega

/-- Witness for claim C6: three in-ttl entries over capacity one; cleanup
keeps exactly one entry. -/
theorem cleanup_two_phase_w :
    (⟨1, 100, [("a", ⟨[], 0⟩), ("b", ⟨[], 10⟩), ("c", ⟨[], 5⟩)]⟩ : VectorCache).WF ∧
    (1 : Nat) < (ttlSurvivors ⟨1, 100, [("a", ⟨[], 0⟩), ("b", ⟨[], 10⟩), ("c", ⟨[], 5⟩)]⟩ 30).length ∧
    ((⟨1, 100, [("a", ⟨[], 0⟩), ("b", ⟨[], 10⟩), ("c", ⟨[], 5⟩)]⟩ : VectorCache).cleanup 30).entries.length = 1 :=
  ⟨by unfold VectorCache.WF; decide, by decide,
   ((cleanup_two_phase ⟨1, 100, [("a", ⟨[], 0⟩), ("b", ⟨[], 10⟩), ("c", ⟨[], 5⟩)]⟩ 30
      (by unfold VectorCache.WF; decide)).2.2 (by decide)).1⟩

/-! ### Claims C3 and C4: RealTimeDetector -/

/-- The mean of n copies of v is v. -/
theorem npMeanQ_replicate (n : ℕ) (v : ℚ) (hn : n ≠ 0) :
    npMeanQ (List.replicate n v) = v := by
  have hn' : (n : ℚ) ≠ 0 := Nat.cast_ne_zero.mpr hn
  unfold npMeanQ
  rw [List.sum_replicate, List.length_replicate, nsmul_eq_mul]
  field_simp

/-- The population variance of n copies of v is 0. -/
theorem npVarQ_replicate (n : ℕ) (v : ℚ) : npVarQ (List.replicate n v) = 0 := by
  cases n with
  | zero => simp [npVarQ]
  | succ m =>
      unfold npVarQ
      rw [npMeanQ_replicate (m + 1) v (Nat.succ_ne_zero m), List.map_replicate]
      simp

/-- The standard deviation of n copies of v is 0. -/
theorem npStd_replicate (n : ℕ) (v : ℚ) : npStd (List.replicate n v) = 0 := by
  unfold npStd
  rw [npVarQ_replicate]
  simp

/-- Appending to a deque holding k copies with room to spare keeps all of
them. -/
theorem dequeAppend_replicate (cap k : ℕ) (v : ℚ) (h : k + 1 ≤ cap) :
    dequeAppend cap (List.replicate k v) v = List.replicate (k + 1) v := by
  simp only [dequeAppend, ← List.replicate_succ']
  rw [if_neg (show ¬ cap < (List.replicate (k + 1) v).length by
    simp only [List.length_replicate]; omega)]

/-- A score equal to every window entry is never classified anomalous, in
either threshold mode: the threshold is infinite (fewer than 2 samples),
mean + 1 (zero standard deviation) or mean + 2 * std (fixed mode), all at
least the score itself. -/
theorem updIsAnomaly_const (s : RealTimeDetector) (v : ℚ) (k : ℕ)
    (hw : s.score_window = List.replicate k v) (hlen : k + 1 ≤ s.window_size) :
    updIsAnomaly s v = false := by
  have hwin : newWindow s v = List.replicate (k + 1) v := by
    unfold newWindow
    rw [hw]
    exact dequeAppend_replicate s.window_size k v hlen
  unfold updIsAnomaly updThreshold
  rw [hwin, npStd_replicate, npMeanQ_replicate (k + 1) v (Nat.succ_ne_zero k)]
  cases hmode : s.adaptive_threshold with
  | false =>
      simp only [hmode, Bool.false_eq_true, if_false]
      apply decide_eq_false
      intro hlt
      rw [WithTop.coe_lt_coe] at hlt
      simp at hlt
  | true =>
      simp only [hmode, if_true]
      unfold calculate_adaptive_threshold
      by_cases hk : (List.replicate (k + 1) v).length < 2
      · rw [if_pos hk]
        exact decide_eq_false not_top_lt
      · rw [if_neg hk, if_pos (npStd_replicate (k + 1) v),
          npMeanQ_replicate (k + 1) v (Nat.succ_ne_zero k)]
        apply decide_eq_false
        intro hlt
        rw [WithTop.coe_lt_coe] at hlt
        have : ((v : ℝ) + 1 : ℝ) < (v : ℝ) := hlt
        linarith

/-- Invariant for C4: feeding k ≤ capacity copies of v into a fresh detector
leaves the window holding k copies, k events counted, no anomalies and a
zero anomaly ratio, with the configuration untouched. -/
theorem feedConst_invariant (cap : ℕ) (r : ℚ) (mode : Bool) (v : ℚ) :
    ∀ k, k ≤ cap →
      (feedConst (RealTimeDetector.init cap r mode) v k).score_window = List.replicate k v ∧
      (feedConst (RealTimeDetector.init cap r mode) v k).total_logs = k ∧
      (feedConst (RealTimeDetector.init cap r mode) v k).total_anomalies = 0 ∧
      (feedConst (RealTimeDetector.init cap r mode) v k).current_anomaly_ratio = 0 ∧
      (feedConst (RealTimeDetector.init cap r mode) v k).window_size = cap ∧
      (feedConst (RealTimeDetector.init cap r mode) v k).adaptive_threshold = mode := by
  intro k
  induction k with
  | zero => exact fun _ => ⟨rfl, rfl, rfl, rfl, rfl, rfl⟩
  | succ m ih =>
      intro hk
      obtain ⟨hw, hlogs, hanom, hratio, hws, hmode⟩ := ih (by omega)
      set s := feedConst (RealTimeDetector.init cap r mode) v m with hs
      have hlen : m + 1 ≤ s.window_size := by rw [hws]; omega
      have hanomF : updIsAnomaly s v = false := updIsAnomaly_const s v m hw hlen
      have hwin : newWindow s v = List.replicate (m + 1) v := by
        unfold newWindow
        rw [hw]
        exact dequeAppend_replicate s.window_size m v hlen
      refine ⟨?_, ?_, ?_, ?_, ?_, ?_⟩
      · show newWindow s v = List.replicate (m + 1) v
        exact hwin
      · show s.total_logs + 1 = m + 1
        rw [hlogs]
      · show s.total_anomalies + (if updIsAnomaly s v then 1 else 0) = 0
        rw [hanom, hanomF]
        rfl
      · show ((s.total_anomalies + (if updIsAnomaly s v then 1 else 0) : ℕ) : ℚ) /
            ((s.total_logs + 1 : ℕ) : ℚ) = 0
        rw [hanom, hanomF]
        simp
      · exact hws
      · exact hmode

/-- Claim C4: feeding N ≥ 1 identical scores v into a freshly reset detector
whose window capacity is at least N yields a zero current anomaly ratio
after the N-th update, in both fixed and adaptive threshold modes (mode is
universally quantified). -/
theorem const_scores_anomaly_ratio_zero (cap : ℕ) (r : ℚ) (mode : Bool) (v : ℚ)
    (N : ℕ) (hN : 1 ≤ N) (hcap : N ≤ cap) :
    (feedConst (RealTimeDetector.init cap r mode) v N).current_anomaly_ratio = 0 := by
  have _hN := hN
  exact (feedConst_invariant cap r mode v N hcap).2.2.2.1

/-- Witness for claim C4: one update with score 0 on a fresh fixed-mode
detector of capacity 1 leaves the anomaly ratio at 0. -/
theorem const_scores_anomaly_ratio_zero_w :
    ((1 : ℕ) ≤ 1 ∧ (1 : ℕ) ≤ 1) ∧
    (feedConst (RealTimeDetector.init 1 0 false) 0 1).current_anomaly_ratio = 0 :=
  ⟨⟨le_refl 1, le_refl 1⟩,
   const_scores_anomaly_ratio_zero 1 0 false 0 1 (le_refl 1) (le_refl 1)⟩

/-- Claim C3: in adaptive mode, the threshold produced by update over the
freshly appended window is the adaptive computation: infinite below 2
samples; mean + 1.0 when the standard deviation is exactly 0; otherwise
mean + p95 * std where p95 is the 95th percentile of the absolute z-scores
of the current window contents. -/
theorem update_adaptive_threshold_cases (s : RealTimeDetector) (score : ℚ)
    (hmode : s.adaptive_threshold = true) :
    ((s.update score).2.threshold = calculate_adaptive_threshold (newWindow s score)) ∧
    ((newWindow s score).length < 2 → (s.update score).2.threshold = ⊤) ∧
    (2 ≤ (newWindow s score).length → npStd (newWindow s score) = 0 →
      (s.update score).2.threshold =
        (((npMeanQ (newWindow s score) : ℝ) + 1 : ℝ) : WithTop ℝ)) ∧
    (2 ≤ (newWindow s score).length → npStd (newWindow s score) ≠ 0 →
      (s.update score).2.threshold =
        (((npMeanQ (newWindow s score) : ℝ) +
          npPercentile (absZScores (newWindow s score)) 95 *
            npStd (newWindow s score) : ℝ) : WithTop ℝ)) := by
  have hth : (s.update score).2.threshold =
      calculate_adaptive_threshold (newWindow s score) := by
    show updThreshold s score = _
    unfold updThreshold
    simp only [hmode, if_true]
  refine ⟨hth, fun h2 => ?_, fun h2 h0 => ?_, fun h2 h0 => ?_⟩
  · rw [hth]
    unfold calculate_adaptive_threshold
    rw [if_pos h2]
  · rw [hth]
    unfold calculate_adaptive_threshold
    rw [if_neg (show ¬ (newWindow s score).length < 2 by omega), if_pos h0]
  · rw [hth]
    unfold calculate_adaptive_threshold
    rw [if_neg (show ¬ (newWindow s score).length < 2 by omega), if_neg h0]

/-- Witness for claim C3 in the generic branch: the adaptive detector
holding window contents 0 and 1 has nonzero standard deviation and its
update threshold is mean + p95 * std. -/
theorem update_adaptive_threshold_cases_w :
    (rtdExample.adaptive_threshold = true ∧
     2 ≤ (newWindow rtdExample 1).length ∧
     npStd (newWindow rtdExample 1) ≠ 0) ∧
    (rtdExample.update 1).2.threshold =
      (((npMeanQ (newWindow rtdExample 1) : ℝ) +
        npPercentile (absZScores (newWindow rtdExample 1)) 95 *
          npStd (newWindow rtdExample 1) : ℝ) : WithTop ℝ) := by
  have hw : newWindow rtdExample 1 = [0, 1] := by decide
  have hlen : 2 ≤ (newWindow rtdExample 1).length := by rw [hw]; decide
  have hvar : npVarQ [0, 1] = 1 / 4 := by
    norm_num [npVarQ, npMeanQ]
  have hstd : npStd (newWindow rtdExample 1) ≠ 0 := by
    rw [hw]
    unfold npStd
    rw [hvar]
    have hpos : (0 : ℝ) < Real.sqrt ((1 / 4 : ℚ) : ℝ) :=
      Real.sqrt_pos.mpr (by norm_num)
    exact ne_of_gt hpos
  exact ⟨⟨rfl, hlen, hstd⟩,
    (update_adaptive_threshold_cases rtdExample 1 rfl).2.2.2 hlen hstd⟩

end ModsecAI
